import Mathlib

/-!
Verification of the barber-shop backend (Express + PostgreSQL).

Shallow embedding of the relational data model (`setupDatabase.js`), the
route handlers (`routes/api.js`) and the generic SQL helpers (`db.js`).
Tables are lists of rows; monetary DECIMAL values are rationals; SQL NULL
for aggregates is `Option`; fallible database operations return `Except`.
-/

namespace BarberShop

/-- A row of the `records` table (setupDatabase.js lines 48-58).
`customer_name`, `service` and `staff` are nullable columns. -/
structure Record where
  id : Nat
  date : String
  customer_name : Option String
  service : Option String
  staff : Option String
  price : ℚ
  payment_type : String
deriving DecidableEq, Repr

/-- A row of the `expenses` table (setupDatabase.js lines 61-69). -/
structure Expense where
  id : Nat
  date : String
  type : String
  description : Option String
  amount : ℚ
  payment_type : String
deriving DecidableEq, Repr

/-- A row of the `services`, `staff` or `expense_types` tables, which share
the shape `(id SERIAL, name VARCHAR UNIQUE, active BOOLEAN)`. -/
structure NamedRow where
  id : Nat
  name : String
  active : Bool
deriving DecidableEq, Repr

/-- The whole relational store. -/
structure Database where
  services : List NamedRow
  staff : List NamedRow
  expense_types : List NamedRow
  records : List Record
  expenses : List Expense
deriving DecidableEq, Repr

/-- PostgreSQL error classes relevant to the routes. -/
inductive DbError where
  | checkViolation
  | uniqueViolation
  | undefinedColumn
  | invalidDateLiteral
deriving DecidableEq, Repr

/-- The structured SQLSTATE code of an error, which the route handlers
inspect (`error.code === '23505'`). -/
def sqlState : DbError → String
  | .checkViolation => "23514"
  | .uniqueViolation => "23505"
  | .undefinedColumn => "42703"
  | .invalidDateLiteral => "22008"

/-- The CHECK constraint on `payment_type` in both `records` and `expenses`
(setupDatabase.js: `payment_type IN ('Nakit', 'Kart', 'Banka')`). -/
def paymentTypeAllowed (s : String) : Bool :=
  s = "Nakit" || s = "Kart" || s = "Banka"

/-- The statement `INSERT INTO records ... RETURNING *` issued by POST /records:
the store accepts the row only if the `payment_type` CHECK passes. -/
def insertRecordRow (rows : List Record) (r : Record) :
    Except DbError (List Record) :=
  if paymentTypeAllowed r.payment_type then .ok (rows ++ [r])
  else .error .checkViolation

/-- The statement `INSERT INTO expenses ... RETURNING *` issued by POST /expenses. -/
def insertExpenseRow (rows : List Expense) (e : Expense) :
    Except DbError (List Expense) :=
  if paymentTypeAllowed e.payment_type then .ok (rows ++ [e])
  else .error .checkViolation

/-- All stored `records` rows satisfy the payment-type CHECK constraint. -/
def recordsPaymentsValid (rows : List Record) : Prop :=
  ∀ x ∈ rows, paymentTypeAllowed x.payment_type = true

/-- All stored `expenses` rows satisfy the payment-type CHECK constraint. -/
def expensesPaymentsValid (rows : List Expense) : Prop :=
  ∀ x ∈ rows, paymentTypeAllowed x.payment_type = true

/-- A sample record with a given payment type, used at concrete inputs. -/
def sampleRecord (pt : String) : Record :=
  { id := 1, date := "2024-01-10", customer_name := none,
    service := some "Saç", staff := some "Ufuk",
    price := 100, payment_type := pt }

/-- A sample expense with a given payment type. -/
def sampleExpense (pt : String) : Expense :=
  { id := 1, date := "2024-01-10", type := "Kira",
    description := none, amount := 50, payment_type := pt }

/-- The columns of the `services` table as created by setupDatabase.js
("Services table (NO default prices)"): id, name, active. -/
def servicesTableColumns : List String := ["id", "name", "active"]

/-- The target column list of the INSERT issued by POST /services
(routes/api.js line 266: `INSERT INTO services (name, default_price, active)`). -/
def postServicesInsertColumns : List String := ["name", "default_price", "active"]

/-- Outcome of a POST route as seen by the HTTP client. -/
inductive ApiOutcome (α : Type) where
  | ok (value : α)
  | badRequestDuplicate
  | serverError
deriving DecidableEq, Repr

/-- The INSERT issued by POST /services, with PostgreSQL's column
resolution: a target column absent from the table raises an
undefined-column error (42703); a duplicate `name` raises a unique
violation (23505); otherwise the row is created active. -/
def insertServicesRow (svcs : List NamedRow) (nm : String) :
    Except DbError (NamedRow × List NamedRow) :=
  if ¬ postServicesInsertColumns.all (fun c => servicesTableColumns.contains c) then
    .error .undefinedColumn
  else if svcs.any (fun s => s.name = nm) then .error .uniqueViolation
  else
    let row : NamedRow := { id := svcs.length + 1, name := nm, active := true }
    .ok (row, svcs ++ [row])

/-- The POST /services handler (routes/api.js lines 261-281): on success it
returns the created row; on an error whose code is '23505' it returns a
400 duplicate message; on any other error it returns a generic 500. -/
def postServices (db : Database) (nm : String) :
    ApiOutcome NamedRow × Database :=
  match insertServicesRow db.services nm with
  | .ok (row, svcs) => (.ok row, { db with services := svcs })
  | .error e =>
      if sqlState e = "23505" then (.badRequestDuplicate, db)
      else (.serverError, db)

/-- First-occurrence deduplication, the order in which a GROUP BY result is
materialised in this embedding (SQL leaves group order unspecified). -/
def firstDedup {α : Type} [DecidableEq α] (l : List α) : List α :=
  l.foldl (fun acc x => if x ∈ acc then acc else acc ++ [x]) []

/-- SQL `SUM` over a list of rationals: NULL (`none`) when there are no
rows, otherwise the sum. -/
def sqlSum (l : List ℚ) : Option ℚ :=
  if l.isEmpty then none else some l.sum

/-- The JS coercion `parseFloat(x) || 0` applied to an aggregate result:
a NULL sum (`parseFloat(null)` is `NaN`) becomes 0. -/
def coalesceAmount (o : Option ℚ) : ℚ := o.getD 0

/-- One row of a `GROUP BY payment_type` aggregate query. -/
structure PTGroup where
  payment_type : String
  count : Nat
  total : Option ℚ
deriving DecidableEq, Repr

/-- The query `SELECT payment_type, COUNT(*), SUM(v) FROM t WHERE date = d
GROUP BY payment_type`, for rows already filtered to the date: one output row per
distinct payment type, counting and summing its group. -/
def groupByPaymentType {α : Type} [DecidableEq α] (key : α → String)
    (value : α → ℚ) (rows : List α) : List PTGroup :=
  (firstDedup (rows.map key)).map (fun pt =>
    { payment_type := pt,
      count := (rows.filter (fun r => key r = pt)).length,
      total := sqlSum ((rows.filter (fun r => key r = pt)).map value) })

/-- Rows of `records` with the given date (`WHERE date = $1`). -/
def recordsOn (rows : List Record) (d : String) : List Record :=
  rows.filter (fun r => r.date = d)

/-- Rows of `expenses` with the given date. -/
def expensesOn (rows : List Expense) (d : String) : List Expense :=
  rows.filter (fun e => e.date = d)

/-- Totals `COUNT(*), SUM(v)` after the JS coercions
`parseInt(count) || 0` and `parseFloat(total) || 0`. -/
structure Totals where
  count : Nat
  amount : ℚ
deriving DecidableEq, Repr

/-- The response of GET /reports/daily-summary/:date
(routes/api.js lines 395-468). -/
structure DailySummary where
  date : String
  incomeByPaymentType : List PTGroup
  incomeTotal : Totals
  expensesByPaymentType : List PTGroup
  expensesTotal : Totals
  netProfit : ℚ
deriving DecidableEq, Repr

/-- The daily-summary computation: four aggregate queries over `records`
and `expenses` restricted to the date, combined with null sums coalesced
to zero (`parseFloat(total) || 0`) before the subtraction. -/
def dailySummary (db : Database) (d : String) : DailySummary :=
  let recs := recordsOn db.records d
  let exps := expensesOn db.expenses d
  { date := d,
    incomeByPaymentType :=
      groupByPaymentType (fun r => r.payment_type) (fun r => r.price) recs,
    incomeTotal :=
      { count := recs.length,
        amount := coalesceAmount (sqlSum (recs.map (fun r => r.price))) },
    expensesByPaymentType :=
      groupByPaymentType (fun e => e.payment_type) (fun e => e.amount) exps,
    expensesTotal :=
      { count := exps.length,
        amount := coalesceAmount (sqlSum (exps.map (fun e => e.amount))) },
    netProfit :=
      coalesceAmount (sqlSum (recs.map (fun r => r.price))) -
        coalesceAmount (sqlSum (exps.map (fun e => e.amount))) }

/-- Lexicographic order on character lists, by code point. -/
def charListLe : List Char → List Char → Bool
  | [], _ => true
  | _ :: _, [] => false
  | a :: as, b :: bs =>
      if a.toNat = b.toNat then charListLe as bs
      else decide (a.toNat < b.toNat)

/-- Order on ISO `YYYY-MM-DD` date strings: for equal-length digit-dash
strings, lexicographic order coincides with calendar DATE order, which is
how PostgreSQL compares the `date` column. -/
def dateLe (a b : String) : Bool := charListLe a.toList b.toList

/-- The filter `date >= $1 AND date <= $2` — the inclusive range of the
monthly and report queries. -/
def inDateRange (startDate endDate d : String) : Bool :=
  dateLe startDate d && dateLe d endDate

/-- One row of GET /reports/staff-performance/:startDate/:endDate
(routes/api.js lines 471-494). `services_provided` is
`array_agg(DISTINCT service)`, whose element order is unspecified; this
embedding materialises first occurrences. -/
structure StaffPerf where
  staff : String
  service_count : Nat
  total_revenue : ℚ
  average_price : ℚ
  services_provided : List (Option String)
deriving DecidableEq, Repr

/-- The ordering `ORDER BY total_revenue DESC` as a relation on result rows. -/
def revDesc (a b : StaffPerf) : Prop := b.total_revenue ≤ a.total_revenue

instance : DecidableRel revDesc :=
  fun _ _ => inferInstanceAs (Decidable (_ ≤ _))

instance : IsTotal StaffPerf revDesc :=
  ⟨fun a b => le_total b.total_revenue a.total_revenue⟩

instance : IsTrans StaffPerf revDesc :=
  ⟨fun _ _ _ h1 h2 => le_trans h2 h1⟩

/-- The staff-performance query: records in the inclusive date range with
non-null `staff`, grouped by `staff`, with count, `SUM(price)`,
`AVG(price)` and `array_agg(DISTINCT service)`, ordered by revenue
descending. -/
def staffPerformanceRows (rows : List Record) (startDate endDate : String) :
    List StaffPerf :=
  let filtered := rows.filter
    (fun r => inDateRange startDate endDate r.date && r.staff.isSome)
  let staffs := firstDedup (filtered.filterMap (fun r => r.staff))
  List.insertionSort revDesc (staffs.map (fun s =>
    let g := filtered.filter (fun r => r.staff = some s)
    { staff := s,
      service_count := g.length,
      total_revenue := (g.map (fun r => r.price)).sum,
      average_price := (g.map (fun r => r.price)).sum / (g.length : ℚ),
      services_provided := firstDedup (g.map (fun r => r.service)) }))

/-- JS `month.padStart(2, '0')`: left-pad with '0' up to length 2. -/
def padStart2 (s : String) : String :=
  if s.length ≥ 2 then s
  else if s.length = 1 then "0" ++ s
  else "00" ++ s

/-- Gregorian leap-year rule, as used by PostgreSQL's date type. -/
def isLeapYear (y : Nat) : Bool :=
  (y % 4 = 0 && y % 100 ≠ 0) || y % 400 = 0

/-- Number of days in a month. -/
def daysInMonth (y m : Nat) : Nat :=
  if m = 2 then (if isLeapYear y then 29 else 28)
  else if m = 4 ∨ m = 6 ∨ m = 9 ∨ m = 11 then 30
  else 31

/-- Split a character list on '-'. -/
def splitDash : List Char → List (List Char)
  | [] => [[]]
  | c :: cs =>
      match splitDash cs with
      | [] => [[]]
      | g :: gs => if c = '-' then [] :: g :: gs else (c :: g) :: gs

/-- Parse a non-empty all-digit character list as a natural number. -/
def digitsToNat : List Char → Option Nat
  | [] => none
  | cs =>
      cs.foldl
        (fun acc c =>
          match acc with
          | none => none
          | some n => if c.isDigit then some (n * 10 + (c.toNat - 48)) else none)
        (some 0)

/-- PostgreSQL's validation of a `YYYY-MM-DD` date input: the month must
be 1..12 and the day must exist in that month, otherwise the input raises
`date/time field value out of range` (SQLSTATE 22008). -/
def parseISODate (s : String) : Option (Nat × Nat × Nat) :=
  match splitDash s.toList with
  | [ys, ms, ds] =>
      match digitsToNat ys, digitsToNat ms, digitsToNat ds with
      | some y, some m, some d =>
          if 1 ≤ m ∧ m ≤ 12 ∧ 1 ≤ d ∧ d ≤ daysInMonth y m then
            some (y, m, d)
          else none
      | _, _, _ => none
  | _ => none

/-- The range start built by the monthly routes:
`` `${year}-${month.padStart(2, '0')}-01` ``. -/
def monthStart (year month : String) : String :=
  year ++ "-" ++ padStart2 month ++ "-01"

/-- The range end built by the monthly routes:
`` `${year}-${month.padStart(2, '0')}-31` `` — day 31 for every month. -/
def monthEnd (year month : String) : String :=
  year ++ "-" ++ padStart2 month ++ "-31"

/-- GET /records/monthly/:year/:month (routes/api.js lines 47-65): the
query binds both bounds as `date` values, so PostgreSQL first validates
them as dates (an invalid literal aborts the query), then returns the
rows in the inclusive range. -/
def monthlyRecords (rows : List Record) (year month : String) :
    Except DbError (List Record) :=
  match parseISODate (monthStart year month),
      parseISODate (monthEnd year month) with
  | some _, some _ =>
      .ok (rows.filter
        (fun r => inDateRange (monthStart year month) (monthEnd year month)
          r.date))
  | _, _ => .error .invalidDateLiteral

/-- GET /expenses/monthly/:year/:month (routes/api.js lines 129-147). -/
def monthlyExpenses (rows : List Expense) (year month : String) :
    Except DbError (List Expense) :=
  match parseISODate (monthStart year month),
      parseISODate (monthEnd year month) with
  | some _, some _ =>
      .ok (rows.filter
        (fun e => inDateRange (monthStart year month) (monthEnd year month)
          e.date))
  | _, _ => .error .invalidDateLiteral

/-- The ordering `ORDER BY name` as a relation on reference rows: lexicographic
code-point order on the name. -/
def nameLe (a b : NamedRow) : Prop :=
  charListLe a.name.toList b.name.toList = true

instance : DecidableRel nameLe :=
  fun _ _ => inferInstanceAs (Decidable (_ = _))

/-- Sorting `ORDER BY name` on a reference table. -/
def sortByName (rows : List NamedRow) : List NamedRow :=
  List.insertionSort nameLe rows

/-- The GET /services, GET /staff and GET /expense-types handler body:
all rows when the `includeInactive` query parameter is exactly the string
"true", otherwise only `active = true` rows; ordered by name. -/
def listNamed (rows : List NamedRow) (includeInactive : Option String) :
    List NamedRow :=
  if includeInactive = some "true" then sortByName rows
  else sortByName (rows.filter (fun r => r.active))

/-- GET /services (routes/api.js lines 244-258). -/
def getServices (db : Database) (q : Option String) : List NamedRow :=
  listNamed db.services q

/-- GET /staff (routes/api.js lines 310-324). -/
def getStaff (db : Database) (q : Option String) : List NamedRow :=
  listNamed db.staff q

/-- GET /expense-types (routes/api.js lines 376-390). -/
def getExpenseTypes (db : Database) (q : Option String) : List NamedRow :=
  listNamed db.expense_types q

/-- The statement `UPDATE t SET active = false WHERE id = $1 RETURNING *`
followed by
the route's zero-rows check: flips `active` on every matching row and
reports the first updated row. -/
def softDeleteNamed (rows : List NamedRow) (i : Nat) :
    Option NamedRow × List NamedRow :=
  let updated := rows.map
    (fun r => if r.id = i then { r with active := false } else r)
  ((updated.filter (fun r => decide (r.id = i))).head?, updated)

/-- DELETE /services/:id (routes/api.js lines 284-305): only the
`services` table is touched. -/
def deleteServiceEndpoint (db : Database) (i : Nat) :
    Option NamedRow × Database :=
  ((softDeleteNamed db.services i).1,
    { db with services := (softDeleteNamed db.services i).2 })

/-- DELETE /staff/:id (routes/api.js lines 350-371). -/
def deleteStaffEndpoint (db : Database) (i : Nat) :
    Option NamedRow × Database :=
  ((softDeleteNamed db.staff i).1,
    { db with staff := (softDeleteNamed db.staff i).2 })

/-- Modelled from the spec: routes/api.js defines no DELETE
/expense-types/:id endpoint; the spec gives ExpenseType the same
soft-delete lifecycle as Service ("same shape and lifecycle as Service"),
i.e. the same `UPDATE ... SET active = false WHERE id = $1` statement on
the `expense_types` table. -/
def deleteExpenseTypeEndpoint (db : Database) (i : Nat) :
    Option NamedRow × Database :=
  ((softDeleteNamed db.expense_types i).1,
    { db with expense_types := (softDeleteNamed db.expense_types i).2 })

/-- HTTP outcome of the DELETE /records/:id and DELETE /expenses/:id
routes: 404 when `result.rows.length === 0`, otherwise the removed row. -/
inductive DeleteOutcome (α : Type) where
  | notFound
  | deleted (row : α)
deriving DecidableEq, Repr

/-- The statement `DELETE FROM t WHERE id = $1 RETURNING *`, with the route's
zero-rows check: removes every row whose id matches and reports the
first returned row. -/
def deleteById {α : Type} (key : α → Nat) (rows : List α) (i : Nat) :
    DeleteOutcome α × List α :=
  let removed := rows.filter (fun r => decide (key r = i))
  let remaining := rows.filter (fun r => ! decide (key r = i))
  match removed with
  | [] => (.notFound, remaining)
  | r :: _ => (.deleted r, remaining)

/-- DELETE /records/:id (routes/api.js lines 68-86). -/
def deleteRecordById (rows : List Record) (i : Nat) :
    DeleteOutcome Record × List Record :=
  deleteById (fun r => r.id) rows i

/-- DELETE /expenses/:id (routes/api.js lines 150-168). -/
def deleteExpenseById (rows : List Expense) (i : Nat) :
    DeleteOutcome Expense × List Expense :=
  deleteById (fun e => e.id) rows i

/-- The generic UPDATE statement built by `update(table, data, where)` in
db.js, in structured form: SET fragments (column, placeholder index —
`none` for the literal `updated_at = CURRENT_TIMESTAMP`), WHERE fragments
(column, placeholder index), and the positional parameter list. -/
structure UpdateStatement (α : Type) where
  table : String
  setFragments : List (String × Option Nat)
  whereFragments : List (String × Nat)
  params : List α
deriving DecidableEq, Repr

/-- db.js lines 155-173: `SET col = $(i+1), ...` over the data map,
`updated_at = CURRENT_TIMESTAMP` appended, `WHERE col =
$(dataValues.length + i + 1) AND ...` over the where map, executed with
`[...dataValues, ...whereValues]`. -/
def update {α : Type} (table : String) (data whereMap : List (String × α)) :
    UpdateStatement α :=
  { table := table,
    setFragments :=
      (data.enum.map (fun p => (p.2.1, some (p.1 + 1)))) ++
        [("updated_at", none)],
    whereFragments :=
      whereMap.enum.map (fun p => (p.2.1, data.length + p.1 + 1)),
    params := data.map Prod.snd ++ whereMap.map Prod.snd }

/-- A JavaScript value handed to `buildWhereClause`: `null`, a scalar, or
an array. -/
inductive JsValue where
  | null
  | scalar (s : String)
  | array (items : List String)
deriving DecidableEq, Repr

/-- One conjunct of the WHERE clause built by `buildWhereClause`:
`col IS NULL`, `col = $k`, or `col = ANY($k)`. -/
inductive WhereFrag where
  | isNull (col : String)
  | eqParam (col : String) (placeholder : Nat)
  | eqAny (col : String) (placeholder : Nat)
deriving DecidableEq, Repr

/-- db.js lines 391-400 (module export `buildWhereClause`): each entry at
index `i` renders `IS NULL` for a null value (contributing no parameter)
and otherwise a placeholder numbered `i + 1`; the returned values are the
non-null entry values in order. -/
def buildWhereClause (conditions : List (String × JsValue)) :
    List WhereFrag × List JsValue :=
  (conditions.enum.map (fun p =>
      match p.2.2 with
      | .null => WhereFrag.isNull p.2.1
      | .scalar _ => WhereFrag.eqParam p.2.1 (p.1 + 1)
      | .array _ => WhereFrag.eqAny p.2.1 (p.1 + 1)),
   (conditions.map Prod.snd).filter (fun v => ¬ v = JsValue.null))

/-- The placeholder index carried by a WHERE conjunct, if any. -/
def fragPlaceholder : WhereFrag → Option Nat
  | .isNull _ => none
  | .eqParam _ k => some k
  | .eqAny _ k => some k

/-- The placeholder indices appearing in a clause, in order. -/
def wherePlaceholders (frags : List WhereFrag) : List Nat :=
  frags.filterMap fragPlaceholder

/-- The placeholder an indexed condition entry contributes, if any. -/
def placeholderOfEntry (p : Nat × (String × JsValue)) : Option Nat :=
  match p.2.2 with
  | .null => none
  | .scalar _ => some (p.1 + 1)
  | .array _ => some (p.1 + 1)

end BarberShop

namespace BarberShop

/-- Totality of `charListLe`. -/
theorem charListLe_total :
    ∀ as bs : List Char, charListLe as bs = true ∨ charListLe bs as = true := by
  intro as
  induction as with
  | nil => intro bs; exact Or.inl rfl
  | cons a as ih =>
      intro bs
      cases bs with
      | nil => exact Or.inr rfl
      | cons b bs =>
          simp only [charListLe]
          by_cases h : a.toNat = b.toNat
          · rw [if_pos h, if_pos h.symm]
            exact ih bs
          · rw [if_neg h, if_neg (fun hb => h hb.symm)]
            simp only [decide_eq_true_eq]
            omega

/-- Transitivity of `charListLe`. -/
theorem charListLe_trans :
    ∀ as bs cs : List Char, charListLe as bs = true →
      charListLe bs cs = true → charListLe as cs = true := by
  intro as
  induction as with
  | nil => intro bs cs _ _; rfl
  | cons a as ih =>
      intro bs cs h1 h2
      cases bs with
      | nil => simp [charListLe] at h1
      | cons b bs =>
          cases cs with
          | nil => simp [charListLe] at h2
          | cons c cs =>
              simp only [charListLe] at h1 h2 ⊢
              by_cases hab : a.toNat = b.toNat
              · rw [if_pos hab] at h1
                by_cases hbc : b.toNat = c.toNat
                · rw [if_pos hbc] at h2
                  rw [if_pos (hab.trans hbc)]
                  exact ih bs cs h1 h2
                · rw [if_neg hbc] at h2
                  simp only [decide_eq_true_eq] at h2
                  rw [if_neg (by omega)]
                  simp only [decide_eq_true_eq]
                  omega
              · rw [if_neg hab] at h1
                simp only [decide_eq_true_eq] at h1
                by_cases hbc : b.toNat = c.toNat
                · rw [if_neg (by omega)]
                  simp only [decide_eq_true_eq]
                  omega
                · rw [if_neg hbc] at h2
                  simp only [decide_eq_true_eq] at h2
                  rw [if_neg (by omega)]
                  simp only [decide_eq_true_eq]
                  omega

instance : IsTotal NamedRow nameLe :=
  ⟨fun a b => charListLe_total a.name.toList b.name.toList⟩

instance : IsTrans NamedRow nameLe :=
  ⟨fun _ _ _ h1 h2 => charListLe_trans _ _ _ h1 h2⟩

/-- A `filterMap` with a total function is a `map`. -/
theorem filterMap_some_comp {α β : Type} (g : α → β) (l : List α) :
    l.filterMap (fun x => some (g x)) = l.map g := by
  induction l with
  | nil => rfl
  | cons a as ih => simp [List.filterMap_cons, ih]

/-- Successors of the indices of an enumeration form a contiguous range. -/
theorem enumFrom_map_succ_fst {α : Type} (l : List α) :
    ∀ k : Nat,
      (List.enumFrom k l).map (fun p => p.1 + 1) =
        List.range' (k + 1) l.length := by
  induction l with
  | nil => intro k; rfl
  | cons a as ih =>
      intro k
      simp only [List.enumFrom, List.map_cons, List.length_cons,
        List.range'_succ]
      rw [ih (k + 1)]

/-- Shifted successors of the indices of an enumeration form a contiguous
range. -/
theorem enumFrom_map_add_succ_fst {α : Type} (l : List α) (c : Nat) :
    ∀ k : Nat,
      (List.enumFrom k l).map (fun p => c + p.1 + 1) =
        List.range' (c + k + 1) l.length := by
  induction l with
  | nil => intro k; rfl
  | cons a as ih =>
      intro k
      simp only [List.enumFrom, List.map_cons, List.length_cons,
        List.range'_succ]
      rw [ih (k + 1), show c + (k + 1) + 1 = c + k + 1 + 1 by omega]

/-- Sorting preserves membership. -/
theorem mem_sortByName (rows : List NamedRow) (x : NamedRow) :
    x ∈ sortByName rows ↔ x ∈ rows :=
  List.mem_insertionSort nameLe

/-- Membership in a list endpoint's result: all rows when the flag is the
exact string "true", otherwise the active rows. -/
theorem mem_listNamed (rows : List NamedRow) (q : Option String)
    (x : NamedRow) :
    x ∈ listNamed rows q ↔
      x ∈ rows ∧ (q = some "true" ∨ x.active = true) := by
  by_cases hq : q = some "true"
  · simp [listNamed, hq, sortByName]
  · simp [listNamed, hq, sortByName, List.mem_filter]

/-- Every list endpoint's result is sorted by name. -/
theorem sorted_listNamed (rows : List NamedRow) (q : Option String) :
    List.Sorted nameLe (listNamed rows q) := by
  simp only [listNamed]
  split
  · exact List.sorted_insertionSort nameLe _
  · exact List.sorted_insertionSort nameLe _

/-- The soft delete changes no id and no name. -/
theorem softDeleteNamed_idName (rows : List NamedRow) (i : Nat) :
    (softDeleteNamed rows i).2.map (fun x => (x.id, x.name)) =
      rows.map (fun x => (x.id, x.name)) := by
  simp only [softDeleteNamed, List.map_map]
  apply List.map_congr_left
  intro y _
  by_cases h : y.id = i <;> simp [h]

/-- After the soft delete, no row with the deactivated id is in the
default (active-only) listing. -/
theorem softDeleteNamed_not_listed (rows : List NamedRow) (i : Nat) :
    ∀ x ∈ listNamed (softDeleteNamed rows i).2 none, x.id ≠ i := by
  intro x hx
  rw [mem_listNamed] at hx
  obtain ⟨hxu, hact⟩ := hx
  have hact2 : x.active = true := by
    rcases hact with h | h
    · exact absurd h (by simp)
    · exact h
  simp only [softDeleteNamed, List.mem_map] at hxu
  obtain ⟨y, hy, hxy⟩ := hxu
  by_cases h : y.id = i
  · rw [if_pos h] at hxy
    subst hxy
    simp at hact2
  · rw [if_neg h] at hxy
    subst hxy
    exact h

/-- After the soft delete, the deactivated row (same id and name, active
now false) is still returned when `includeInactive=true`. -/
theorem softDeleteNamed_retrievable (rows : List NamedRow) (i : Nat)
    (r : NamedRow) (hr : r ∈ rows) (hid : r.id = i) :
    { r with active := false } ∈
      listNamed (softDeleteNamed rows i).2 (some "true") := by
  rw [mem_listNamed]
  refine ⟨?_, Or.inl rfl⟩
  simp only [softDeleteNamed, List.mem_map]
  exact ⟨r, hr, by rw [if_pos hid]⟩

/-- If no row matches, the filtered-out list is the whole table. -/
theorem deleteById_miss {α : Type} (key : α → Nat) (rows : List α) (i : Nat)
    (h : ∀ r ∈ rows, key r ≠ i) :
    deleteById key rows i = (.notFound, rows) := by
  have hrem : rows.filter (fun r => decide (key r = i)) = [] := by
    rw [List.filter_eq_nil_iff]
    intro r hr
    simpa using h r hr
  have hkeep : rows.filter (fun r => ! decide (key r = i)) = rows := by
    rw [List.filter_eq_self]
    intro r hr
    simpa using h r hr
  simp [deleteById, hrem, hkeep]

/-- With pairwise-distinct keys, the rows matching the key of a member
are exactly that member. -/
theorem filter_key_eq_singleton {α : Type} (key : α → Nat) :
    ∀ (rows : List α), (rows.map key).Nodup → ∀ r ∈ rows,
      rows.filter (fun x => decide (key x = key r)) = [r] := by
  intro rows
  induction rows with
  | nil => intro _ r hr; exact absurd hr (List.not_mem_nil r)
  | cons a as ih =>
      intro hnodup r hr
      have hnd : (∀ x ∈ as, ¬ key x = key a) ∧ (as.map key).Nodup := by
        simpa using hnodup
      rcases List.mem_cons.mp hr with hra | hras
      · subst hra
        have hnil : as.filter (fun x => decide (key x = key r)) = [] := by
          rw [List.filter_eq_nil_iff]
          intro x hx
          simp only [decide_eq_true_eq]
          exact hnd.1 x hx
        simp [List.filter_cons, hnil]
      · have hka : key a ≠ key r := fun hk => hnd.1 r hras hk.symm
        rw [List.filter_cons, if_neg (by simpa using hka)]
        exact ih hnd.2 r hras

/-- Deleting the unique row carrying a key returns that row and shrinks
the table by one. -/
theorem deleteById_hit {α : Type} (key : α → Nat) (rows : List α) (i : Nat)
    (hnodup : (rows.map key).Nodup) (r : α) (hr : r ∈ rows)
    (hkey : key r = i) :
    (deleteById key rows i).1 = .deleted r ∧
    (deleteById key rows i).2.length = rows.length - 1 := by
  subst hkey
  have hfil := filter_key_eq_singleton key rows hnodup r hr
  constructor
  · simp [deleteById, hfil]
  · have h2 := List.length_eq_length_filter_add (l := rows)
      (fun x => decide (key x = key r))
    simp only [] at h2
    rw [hfil] at h2
    simp only [List.length_cons, List.length_nil] at h2
    have hsnd : (deleteById key rows (key r)).2 =
        rows.filter (fun x => ! decide (key x = key r)) := by
      simp only [deleteById]
      rw [hfil]
    rw [hsnd]
    omega

/-- Membership in the accumulator-threaded first-occurrence dedup fold. -/
theorem mem_firstDedup_fold {α : Type} [DecidableEq α] (l : List α) :
    ∀ (acc : List α) (x : α),
      (x ∈ l.foldl (fun acc x => if x ∈ acc then acc else acc ++ [x]) acc ↔
        x ∈ acc ∨ x ∈ l) := by
  induction l with
  | nil => intro acc x; simp
  | cons y ys ih =>
      intro acc x
      simp only [List.foldl_cons]
      by_cases hy : y ∈ acc
      · rw [if_pos hy, ih]
        constructor
        · rintro (h | h)
          · exact Or.inl h
          · exact Or.inr (List.mem_cons_of_mem _ h)
        · rintro (h | h)
          · exact Or.inl h
          · rcases List.mem_cons.mp h with h | h
            · subst h; exact Or.inl hy
            · exact Or.inr h
      · rw [if_neg hy, ih]
        constructor
        · rintro (h | h)
          · rcases List.mem_append.mp h with h | h
            · exact Or.inl h
            · simp only [List.mem_singleton] at h
              subst h; exact Or.inr (List.mem_cons_self _ _)
          · exact Or.inr (List.mem_cons_of_mem _ h)
        · rintro (h | h)
          · exact Or.inl (List.mem_append.mpr (Or.inl h))
          · rcases List.mem_cons.mp h with h | h
            · subst h
              exact Or.inl (List.mem_append.mpr (Or.inr (List.mem_singleton.mpr rfl)))
            · exact Or.inr h

/-- Membership in `firstDedup` is membership in the original list. -/
theorem mem_firstDedup {α : Type} [DecidableEq α] (l : List α) (x : α) :
    x ∈ firstDedup l ↔ x ∈ l := by
  rw [firstDedup, mem_firstDedup_fold]
  simp

/-- C1 (claim as stated is false): the store's CHECK constraint does not
accept the token "Cash": inserting a record or an expense whose
`payment_type` is "Cash" fails with a check violation, while the token
"Nakit", which lies outside the claimed set {Cash, Card, Bank}, is
accepted by both tables. -/
theorem c1_counterexample :
    insertRecordRow [] (sampleRecord "Cash") = .error .checkViolation ∧
    insertExpenseRow [] (sampleExpense "Cash") = .error .checkViolation ∧
    insertRecordRow [] (sampleRecord "Nakit") = .ok [sampleRecord "Nakit"] ∧
    insertExpenseRow [] (sampleExpense "Nakit") = .ok [sampleExpense "Nakit"] := by
  refine ⟨?_, ?_, ?_, ?_⟩ <;> rfl

/-- C1 (amended): for every insert into `records` or `expenses`, the insert
succeeds exactly when `payment_type` is one of the three literal tokens
{Nakit, Kart, Banka}; otherwise it fails with a check-constraint
violation; and a table whose rows all satisfy the constraint still
satisfies it after any successful insert. -/
theorem c1_payment_type_check (rows : List Record) (es : List Expense)
    (r : Record) (e : Expense) :
    ((r.payment_type = "Nakit" ∨ r.payment_type = "Kart" ∨
        r.payment_type = "Banka") →
      insertRecordRow rows r = .ok (rows ++ [r])) ∧
    ((r.payment_type ≠ "Nakit" ∧ r.payment_type ≠ "Kart" ∧
        r.payment_type ≠ "Banka") →
      insertRecordRow rows r = .error .checkViolation) ∧
    ((e.payment_type = "Nakit" ∨ e.payment_type = "Kart" ∨
        e.payment_type = "Banka") →
      insertExpenseRow es e = .ok (es ++ [e])) ∧
    ((e.payment_type ≠ "Nakit" ∧ e.payment_type ≠ "Kart" ∧
        e.payment_type ≠ "Banka") →
      insertExpenseRow es e = .error .checkViolation) ∧
    (∀ rows2, recordsPaymentsValid rows → insertRecordRow rows r = .ok rows2 →
      recordsPaymentsValid rows2) ∧
    (∀ es2, expensesPaymentsValid es → insertExpenseRow es e = .ok es2 →
      expensesPaymentsValid es2) := by
  refine ⟨?_, ?_, ?_, ?_, ?_, ?_⟩
  · intro h
    simp only [insertRecordRow, paymentTypeAllowed]
    rcases h with h | h | h <;> simp [h]
  · intro h
    simp only [insertRecordRow, paymentTypeAllowed]
    simp [h.1, h.2.1, h.2.2]
  · intro h
    simp only [insertExpenseRow, paymentTypeAllowed]
    rcases h with h | h | h <;> simp [h]
  · intro h
    simp only [insertExpenseRow, paymentTypeAllowed]
    simp [h.1, h.2.1, h.2.2]
  · intro rows2 hinv hok
    simp only [insertRecordRow] at hok
    by_cases hpt : paymentTypeAllowed r.payment_type
    · simp only [hpt, if_pos] at hok
      cases hok
      intro x hx
      rcases List.mem_append.mp hx with hx | hx
      · exact hinv x hx
      · simp only [List.mem_singleton] at hx
        subst hx; exact hpt
    · simp [hpt] at hok
  · intro es2 hinv hok
    simp only [insertExpenseRow] at hok
    by_cases hpt : paymentTypeAllowed e.payment_type
    · simp only [hpt, if_pos] at hok
      cases hok
      intro x hx
      rcases List.mem_append.mp hx with hx | hx
      · exact hinv x hx
      · simp only [List.mem_singleton] at hx
        subst hx; exact hpt
    · simp [hpt] at hok

/-- Witness for `c1_payment_type_check` at a concrete input. -/
theorem c1_payment_type_check_witness :
    insertRecordRow [] (sampleRecord "Kart") = .ok ([] ++ [sampleRecord "Kart"]) ∧
    insertExpenseRow [] (sampleExpense "Elden") = .error .checkViolation :=
  ⟨(c1_payment_type_check [] [] (sampleRecord "Kart") (sampleExpense "Elden")).1
      (Or.inr (Or.inl rfl)),
   (c1_payment_type_check [] [] (sampleRecord "Kart")
      (sampleExpense "Elden")).2.2.2.1
      ⟨by decide, by decide, by decide⟩⟩

/-- A record of price 100 paid "Cash" on 2024-03-05, as in the spec's
daily-summary example (the GROUP BY treats payment-type tokens opaquely). -/
def recCash100 : Record :=
  { id := 1, date := "2024-03-05", customer_name := none,
    service := some "Saç", staff := some "Ufuk",
    price := 100, payment_type := "Cash" }

/-- A record of price 50 paid "Card" on 2024-03-05. -/
def recCard50 : Record :=
  { id := 2, date := "2024-03-05", customer_name := none,
    service := some "Sakal", staff := some "Ufuk",
    price := 50, payment_type := "Card" }

/-- Database state holding exactly the two example records. -/
def c3ExampleDb : Database :=
  { services := [], staff := [], expense_types := [],
    records := [recCash100, recCard50], expenses := [] }

/-- C3: the daily summary always computes `netProfit` as the coalesced
income total minus the coalesced expense total; for a date with no
records and no expenses it returns `netProfit = 0` and zero counts and
amounts on both sides; and for the two example records (price 100 "Cash"
and price 50 "Card" on one date) it returns `income.total = {count 2,
amount 150}` with two by-payment-type groups summing 100 and 50. -/
theorem c3_daily_summary (db : Database) (d : String) :
    ((dailySummary db d).netProfit =
      (dailySummary db d).incomeTotal.amount -
        (dailySummary db d).expensesTotal.amount) ∧
    (recordsOn db.records d = [] → expensesOn db.expenses d = [] →
      (dailySummary db d).netProfit = 0 ∧
      (dailySummary db d).incomeTotal = { count := 0, amount := 0 } ∧
      (dailySummary db d).expensesTotal = { count := 0, amount := 0 }) ∧
    ((dailySummary c3ExampleDb "2024-03-05").incomeTotal =
      { count := 2, amount := 150 } ∧
     (dailySummary c3ExampleDb "2024-03-05").incomeByPaymentType =
      [{ payment_type := "Cash", count := 1, total := some 100 },
       { payment_type := "Card", count := 1, total := some 50 }]) := by
  refine ⟨rfl, ?_, ?_, ?_⟩
  · intro h1 h2
    simp [dailySummary, h1, h2, sqlSum, coalesceAmount]
  · norm_num [dailySummary, recordsOn, expensesOn, sqlSum, coalesceAmount,
      c3ExampleDb, recCash100, recCard50]
  · simp +decide only [dailySummary, recordsOn, expensesOn, groupByPaymentType,
      firstDedup, sqlSum, coalesceAmount, c3ExampleDb, recCash100, recCard50,
      List.filter, List.map, List.foldl, List.sum, List.isEmpty]
    norm_num

/-- Witness for `c3_daily_summary` at a concrete input: the empty database
has no rows on any date, so the summary is all zeroes. -/
theorem c3_daily_summary_witness :
    (dailySummary
        { services := [], staff := [], expense_types := [],
          records := [], expenses := [] } "2024-03-05").netProfit = 0 :=
  ((c3_daily_summary
      { services := [], staff := [], expense_types := [],
        records := [], expenses := [] } "2024-03-05").2.1 rfl rfl).1

/-- Record of price 100 for service "Saç" by staff "Ufuk" in January 2024. -/
def recPerf1 : Record :=
  { id := 1, date := "2024-01-10", customer_name := none,
    service := some "Saç", staff := some "Ufuk",
    price := 100, payment_type := "Nakit" }

/-- Record of price 200 for service "Sakal" by the same staff member. -/
def recPerf2 : Record :=
  { id := 2, date := "2024-01-12", customer_name := none,
    service := some "Sakal", staff := some "Ufuk",
    price := 200, payment_type := "Kart" }

/-- C4: the staff-performance report is ordered by total revenue
descending; it has a row for a staff name exactly when some record in the
inclusive date range carries that (non-null) staff name; and for one
staff member with two records of price 100 and 200 on two different
services, the single result row has `service_count = 2`,
`total_revenue = 300`, `average_price = 150`, and `services_provided`
containing both service names exactly once each. -/
theorem c4_staff_performance (rows : List Record) (startDate endDate : String) :
    List.Sorted revDesc (staffPerformanceRows rows startDate endDate) ∧
    (∀ s0 : String,
      (∃ p ∈ staffPerformanceRows rows startDate endDate, p.staff = s0) ↔
      (∃ r ∈ rows, inDateRange startDate endDate r.date = true ∧
        r.staff = some s0)) ∧
    staffPerformanceRows [recPerf1, recPerf2] "2024-01-01" "2024-01-31" =
      [{ staff := "Ufuk", service_count := 2, total_revenue := 300,
         average_price := 150,
         services_provided := [some "Saç", some "Sakal"] }] := by
  refine ⟨List.sorted_insertionSort revDesc _, ?_, ?_⟩
  · intro s0
    simp only [staffPerformanceRows, List.mem_insertionSort, List.mem_map,
      mem_firstDedup, List.mem_filterMap, List.mem_filter,
      Bool.and_eq_true]
    constructor
    · rintro ⟨p, ⟨s, ⟨r, ⟨hr, hrange, _⟩, hstaff⟩, rfl⟩, hps⟩
      exact ⟨r, hr, hrange, hstaff.trans (congrArg some hps)⟩
    · rintro ⟨r, hr, hrange, hstaff⟩
      refine ⟨_, ⟨s0, ⟨r, ⟨hr, hrange, ?_⟩, hstaff⟩, rfl⟩, rfl⟩
      rw [hstaff]; rfl
  · simp +decide only [staffPerformanceRows, recPerf1, recPerf2,
      List.filter, List.filterMap, List.map, firstDedup, List.foldl,
      List.insertionSort, List.orderedInsert, List.length, List.sum,
      List.foldr]
    norm_num

/-- C5: the monthly queries build the upper bound with day 31 for every
month ("YYYY-MM-31"). For year=2024, month=02 the bound "2024-02-31" is
not a valid date, so PostgreSQL rejects the bound value and the query
fails for every table content, instead of returning the February rows:
both monthly endpoints return an error, never a row list. -/
theorem c5_monthly_february_fails (rs : List Record) (es : List Expense) :
    monthlyRecords rs "2024" "02" = .error .invalidDateLiteral ∧
    monthlyExpenses es "2024" "02" = .error .invalidDateLiteral ∧
    parseISODate (monthEnd "2024" "02") = none ∧
    parseISODate "2024-02-29" = some (2024, 2, 29) :=
  ⟨rfl, rfl, rfl, rfl⟩

/-- C6: with the primary-key invariant (pairwise-distinct ids), deleting a
record or an expense by an id matching no row yields the not-found
outcome and leaves the table unchanged, while deleting by the id of a
stored row returns exactly that row and decrements the table length by
one. -/
theorem c6_hard_delete (rs : List Record) (es : List Expense) (i j : Nat)
    (hr : (rs.map (fun r => r.id)).Nodup)
    (he : (es.map (fun e => e.id)).Nodup) :
    ((∀ r ∈ rs, r.id ≠ i) → deleteRecordById rs i = (.notFound, rs)) ∧
    (∀ r ∈ rs, r.id = i → (deleteRecordById rs i).1 = .deleted r ∧
      (deleteRecordById rs i).2.length = rs.length - 1) ∧
    ((∀ e ∈ es, e.id ≠ j) → deleteExpenseById es j = (.notFound, es)) ∧
    (∀ e ∈ es, e.id = j → (deleteExpenseById es j).1 = .deleted e ∧
      (deleteExpenseById es j).2.length = es.length - 1) := by
  refine ⟨?_, ?_, ?_, ?_⟩
  · intro h
    exact deleteById_miss (fun r => r.id) rs i h
  · intro r hmem hid
    exact deleteById_hit (fun r => r.id) rs i hr r hmem hid
  · intro h
    exact deleteById_miss (fun e => e.id) es j h
  · intro e hmem hid
    exact deleteById_hit (fun e => e.id) es j he e hmem hid

/-- Witness for `c6_hard_delete` at concrete inputs: a one-record table
and a one-expense table with id 1, probed with the missing id 2 and the
present id 1. -/
theorem c6_hard_delete_witness :
    (deleteRecordById [sampleRecord "Nakit"] 2 =
      (.notFound, [sampleRecord "Nakit"])) ∧
    ((deleteExpenseById [sampleExpense "Kart"] 1).1 =
      .deleted (sampleExpense "Kart")) :=
  ⟨(c6_hard_delete [sampleRecord "Nakit"] [sampleExpense "Kart"] 2 1
      (by decide) (by decide)).1
    (by intro r hmem; simp only [List.mem_singleton] at hmem; subst hmem; decide),
   ((c6_hard_delete [sampleRecord "Nakit"] [sampleExpense "Kart"] 2 1
      (by decide) (by decide)).2.2.2 (sampleExpense "Kart")
    (List.mem_singleton.mpr rfl) rfl).1⟩

/-- C7: soft-deleting a service, staff member or expense type changes no
id and no name (only `active` can change); the records and expenses
tables — which reference these rows by name — are left untouched, as are
the other reference tables; after the soft delete no row with the
deactivated id appears in the default listing, while the deactivated row
itself is still returned with `includeInactive=true`. -/
theorem c7_soft_delete (db : Database) (i : Nat) :
    ((deleteServiceEndpoint db i).2.services.map (fun x => (x.id, x.name)) =
      db.services.map (fun x => (x.id, x.name))) ∧
    (deleteServiceEndpoint db i).2.records = db.records ∧
    (deleteServiceEndpoint db i).2.expenses = db.expenses ∧
    (deleteServiceEndpoint db i).2.staff = db.staff ∧
    (deleteServiceEndpoint db i).2.expense_types = db.expense_types ∧
    (∀ x ∈ getServices (deleteServiceEndpoint db i).2 none, x.id ≠ i) ∧
    (∀ r ∈ db.services, r.id = i →
      { r with active := false } ∈
        getServices (deleteServiceEndpoint db i).2 (some "true")) ∧
    ((deleteStaffEndpoint db i).2.staff.map (fun x => (x.id, x.name)) =
      db.staff.map (fun x => (x.id, x.name))) ∧
    (deleteStaffEndpoint db i).2.records = db.records ∧
    (deleteStaffEndpoint db i).2.expenses = db.expenses ∧
    (∀ x ∈ getStaff (deleteStaffEndpoint db i).2 none, x.id ≠ i) ∧
    (∀ r ∈ db.staff, r.id = i →
      { r with active := false } ∈
        getStaff (deleteStaffEndpoint db i).2 (some "true")) ∧
    ((deleteExpenseTypeEndpoint db i).2.expense_types.map
        (fun x => (x.id, x.name)) =
      db.expense_types.map (fun x => (x.id, x.name))) ∧
    (deleteExpenseTypeEndpoint db i).2.records = db.records ∧
    (deleteExpenseTypeEndpoint db i).2.expenses = db.expenses ∧
    (∀ x ∈ getExpenseTypes (deleteExpenseTypeEndpoint db i).2 none,
      x.id ≠ i) ∧
    (∀ r ∈ db.expense_types, r.id = i →
      { r with active := false } ∈
        getExpenseTypes (deleteExpenseTypeEndpoint db i).2 (some "true")) :=
  ⟨softDeleteNamed_idName db.services i, rfl, rfl, rfl, rfl,
   softDeleteNamed_not_listed db.services i,
   fun r hr hid => softDeleteNamed_retrievable db.services i r hr hid,
   softDeleteNamed_idName db.staff i, rfl, rfl,
   softDeleteNamed_not_listed db.staff i,
   fun r hr hid => softDeleteNamed_retrievable db.staff i r hr hid,
   softDeleteNamed_idName db.expense_types i, rfl, rfl,
   softDeleteNamed_not_listed db.expense_types i,
   fun r hr hid => softDeleteNamed_retrievable db.expense_types i r hr hid⟩

/-- Witness for `c7_soft_delete` at a concrete input: deactivating the
only service (id 1) keeps it retrievable with `includeInactive=true`. -/
theorem c7_soft_delete_witness :
    { id := 1, name := "Saç", active := false } ∈
      getServices
        (deleteServiceEndpoint
          { services := [{ id := 1, name := "Saç", active := true }],
            staff := [], expense_types := [], records := [], expenses := [] }
          1).2 (some "true") :=
  (c7_soft_delete
    { services := [{ id := 1, name := "Saç", active := true }],
      staff := [], expense_types := [], records := [], expenses := [] }
    1).2.2.2.2.2.2.1
    { id := 1, name := "Saç", active := true }
    (List.mem_singleton.mpr rfl) rfl

/-- C9: for each of the services, staff and expense-types list endpoints,
the result is sorted by name and contains a row exactly when it is stored
and either the `includeInactive` query parameter is the exact string
"true" or the row is active; in particular any other parameter value
(including absence) yields only active rows. -/
theorem c9_list_filtering (db : Database) (q : Option String) :
    List.Sorted nameLe (getServices db q) ∧
    (∀ x, x ∈ getServices db q ↔
      x ∈ db.services ∧ (q = some "true" ∨ x.active = true)) ∧
    List.Sorted nameLe (getStaff db q) ∧
    (∀ x, x ∈ getStaff db q ↔
      x ∈ db.staff ∧ (q = some "true" ∨ x.active = true)) ∧
    List.Sorted nameLe (getExpenseTypes db q) ∧
    (∀ x, x ∈ getExpenseTypes db q ↔
      x ∈ db.expense_types ∧ (q = some "true" ∨ x.active = true)) :=
  ⟨sorted_listNamed db.services q, fun x => mem_listNamed db.services q x,
   sorted_listNamed db.staff q, fun x => mem_listNamed db.staff q x,
   sorted_listNamed db.expense_types q,
   fun x => mem_listNamed db.expense_types q x⟩

/-- C8: in the statement built by the generic update helper, the SET
value placeholders are exactly $1..$n in data-map iteration order, the
WHERE placeholders are exactly $(n+1)..$(n+m) in where-map iteration
order (so every SET placeholder precedes every WHERE placeholder), and
placeholder $k is bound to the k-th entry of the combined parameter list:
position p of the data map for p ≤ n, position p − n of the where map
beyond. -/
theorem c8_update_builder {α : Type} (table : String)
    (data whereMap : List (String × α)) :
    ((update table data whereMap).setFragments.filterMap (fun f => f.2) =
      List.range' 1 data.length) ∧
    ((update table data whereMap).whereFragments.map (fun f => f.2) =
      List.range' (data.length + 1) whereMap.length) ∧
    (∀ j ∈ (update table data whereMap).setFragments.filterMap
        (fun f => f.2),
      ∀ k ∈ (update table data whereMap).whereFragments.map (fun f => f.2),
      j < k) ∧
    (∀ n, n < data.length →
      (update table data whereMap).params[n]? =
        (data[n]?).map Prod.snd) ∧
    (∀ n, n < whereMap.length →
      (update table data whereMap).params[data.length + n]? =
        (whereMap[n]?).map Prod.snd) := by
  have hset : (update table data whereMap).setFragments.filterMap
      (fun f => f.2) = List.range' 1 data.length := by
    simp only [update, List.filterMap_append, List.filterMap_map]
    have h1 : (List.filterMap
        ((fun f : String × Option Nat => f.2) ∘
          (fun p : Nat × (String × α) => (p.2.1, some (p.1 + 1))))
        data.enum) = data.enum.map (fun p => p.1 + 1) := by
      exact filterMap_some_comp (fun p => p.1 + 1) data.enum
    rw [h1]
    have h2 := enumFrom_map_succ_fst data 0
    simp only [Nat.zero_add] at h2
    rw [List.enum, h2]
    simp
  have hwhere : (update table data whereMap).whereFragments.map
      (fun f => f.2) = List.range' (data.length + 1) whereMap.length := by
    simp only [update, List.map_map]
    have h1 : ((fun f : String × Nat => f.2) ∘
        (fun p : Nat × (String × α) => (p.2.1, data.length + p.1 + 1))) =
        (fun p : Nat × (String × α) => data.length + p.1 + 1) := rfl
    rw [h1]
    have h2 := enumFrom_map_add_succ_fst whereMap data.length 0
    simp only [Nat.add_zero] at h2
    rw [List.enum, h2]
  refine ⟨hset, hwhere, ?_, ?_, ?_⟩
  · intro j hj k hk
    rw [hset] at hj
    rw [hwhere] at hk
    rw [List.mem_range'_1] at hj hk
    omega
  · intro n hn
    simp only [update]
    rw [List.getElem?_append_left (by simpa using hn), List.getElem?_map]
  · intro n hn
    simp only [update]
    rw [List.getElem?_append_right (by simp), List.getElem?_map]
    simp

/-- Witness for `c8_update_builder` at a concrete input: a two-column SET
map and a one-column WHERE map. -/
theorem c8_update_builder_witness :
    ((update "services" [("name", "Saç"), ("active", "f")] [("id", "3")]
        ).setFragments.filterMap (fun f => f.2) = List.range' 1 2) ∧
    (update "services" [("name", "Saç"), ("active", "f")]
        [("id", "3")]).params[2]? = some "3" :=
  ⟨(c8_update_builder "services" [("name", "Saç"), ("active", "f")]
      [("id", "3")]).1,
   by
    have h := (c8_update_builder "services" [("name", "Saç"), ("active", "f")]
      [("id", "3")]).2.2.2.2 0 (by decide)
    simpa using h⟩

/-- The placeholders of a built clause are the ones contributed by the
indexed entries. -/
theorem wherePlaceholders_build (conds : List (String × JsValue)) :
    wherePlaceholders (buildWhereClause conds).1 =
      conds.enum.filterMap placeholderOfEntry := by
  simp only [buildWhereClause, wherePlaceholders, List.filterMap_map]
  have hfg : (fragPlaceholder ∘ fun p : Nat × (String × JsValue) =>
      match p.2.2 with
      | .null => WhereFrag.isNull p.2.1
      | .scalar _ => WhereFrag.eqParam p.2.1 (p.1 + 1)
      | .array _ => WhereFrag.eqAny p.2.1 (p.1 + 1)) = placeholderOfEntry := by
    funext p
    rcases p with ⟨i, col, v⟩
    cases v <;> rfl
  rw [hfg]

/-- The contributed placeholders are strictly increasing and bounded
below by one more than the starting index. -/
theorem placeholders_enumFrom_increasing (l : List (String × JsValue)) :
    ∀ k : Nat,
      List.Pairwise (· < ·)
        ((List.enumFrom k l).filterMap placeholderOfEntry) ∧
      (∀ j ∈ (List.enumFrom k l).filterMap placeholderOfEntry,
        k + 1 ≤ j) := by
  induction l with
  | nil =>
      intro k
      exact ⟨List.Pairwise.nil, by intro j hj; simp at hj⟩
  | cons c cs ih =>
      intro k
      obtain ⟨ihp, ihb⟩ := ih (k + 1)
      rcases c with ⟨col, v⟩
      cases v with
      | null =>
          simp only [List.enumFrom, List.filterMap_cons, placeholderOfEntry]
          exact ⟨ihp, fun j hj => by have := ihb j hj; omega⟩
      | scalar s =>
          simp only [List.enumFrom, List.filterMap_cons, placeholderOfEntry]
          refine ⟨List.Pairwise.cons (fun j hj => ?_) ihp, fun j hj => ?_⟩
          · have := ihb j hj; omega
          · rcases List.mem_cons.mp hj with h | h
            · omega
            · have := ihb j h; omega
      | array items =>
          simp only [List.enumFrom, List.filterMap_cons, placeholderOfEntry]
          refine ⟨List.Pairwise.cons (fun j hj => ?_) ihp, fun j hj => ?_⟩
          · have := ihb j hj; omega
          · rcases List.mem_cons.mp hj with h | h
            · omega
            · have := ihb j h; omega

/-- Without null values every entry contributes, so the placeholders form
a contiguous range. -/
theorem placeholders_enumFrom_no_null (l : List (String × JsValue)) :
    ∀ k : Nat, (∀ c ∈ l, ¬ c.2 = JsValue.null) →
      (List.enumFrom k l).filterMap placeholderOfEntry =
        List.range' (k + 1) l.length := by
  induction l with
  | nil => intro k _; rfl
  | cons c cs ih =>
      intro k h
      rcases c with ⟨col, v⟩
      cases v with
      | null =>
          exact absurd rfl (h (col, JsValue.null) (List.mem_cons_self _ _))
      | scalar s =>
          simp only [List.enumFrom, List.filterMap_cons, placeholderOfEntry,
            List.length_cons, List.range'_succ]
          rw [ih (k + 1) (fun c hc => h c (List.mem_cons_of_mem _ hc))]
      | array items =>
          simp only [List.enumFrom, List.filterMap_cons, placeholderOfEntry,
            List.length_cons, List.range'_succ]
          rw [ih (k + 1) (fun c hc => h c (List.mem_cons_of_mem _ hc))]

/-- C10 (claim as stated is false): for the condition map with a null
`deleted_at` followed by a non-null `id`, the single placeholder in the
built clause is `$2` while the returned values array has one element, so
the placeholders are not numbered consecutively from `$1` and the first
placeholder does not refer to the first value. -/
theorem c10_counterexample :
    ¬ (wherePlaceholders (buildWhereClause
        [("deleted_at", JsValue.null), ("id", JsValue.scalar "5")]).1 =
      List.range' 1 (buildWhereClause
        [("deleted_at", JsValue.null), ("id", JsValue.scalar "5")]).2.length) := by
  decide

/-- C10 (amended): each non-null condition entry contributes the
placeholder `its 0-based position in the full map, plus one` (null
entries contribute none), so the placeholder indices are strictly
increasing but can skip numbers after a null entry; only when the map
contains no null values are the placeholders exactly $1..$n with the k-th
placeholder referring to the k-th element of the returned values array. -/
theorem c10_build_where_clause (conds : List (String × JsValue)) :
    (wherePlaceholders (buildWhereClause conds).1 =
      conds.enum.filterMap placeholderOfEntry) ∧
    List.Pairwise (· < ·) (wherePlaceholders (buildWhereClause conds).1) ∧
    ((∀ c ∈ conds, ¬ c.2 = JsValue.null) →
      wherePlaceholders (buildWhereClause conds).1 =
        List.range' 1 conds.length ∧
      (buildWhereClause conds).2 = conds.map Prod.snd) := by
  refine ⟨wherePlaceholders_build conds, ?_, ?_⟩
  · rw [wherePlaceholders_build conds]
    exact (placeholders_enumFrom_increasing conds 0).1
  · intro h
    constructor
    · rw [wherePlaceholders_build conds, List.enum,
        placeholders_enumFrom_no_null conds 0 h]
    · simp only [buildWhereClause]
      rw [List.filter_eq_self]
      intro v hv
      rcases List.mem_map.mp hv with ⟨c, hc, hcv⟩
      subst hcv
      simpa using h c hc

/-- Witness for `c10_build_where_clause` at a concrete input with no null
values: the placeholders are exactly $1, $2. -/
theorem c10_build_where_clause_witness :
    wherePlaceholders (buildWhereClause
        [("id", JsValue.scalar "5"), ("name", JsValue.scalar "Saç")]).1 =
      List.range' 1 2 ∧
    (buildWhereClause
        [("id", JsValue.scalar "5"), ("name", JsValue.scalar "Saç")]).2 =
      [JsValue.scalar "5", JsValue.scalar "Saç"] :=
  (c10_build_where_clause
      [("id", JsValue.scalar "5"), ("name", JsValue.scalar "Saç")]).2.2
    (by decide)

/-- C2: the INSERT issued by POST /services targets the column
`default_price`, which the `services` table created by setupDatabase.js
does not have. The statement therefore always fails with an
undefined-column error (SQLSTATE 42703), which the handler — that only
distinguishes '23505' — maps to a generic 500. For every database state
and every requested name (fresh or duplicate), POST /services returns the
generic server error and creates no row. -/
theorem c2_post_services_always_fails (db : Database) (nm : String) :
    postServices db nm = (.serverError, db) := rfl

end BarberShop
